import Mathlib

/-!
Verification of the broadcast/gossip node (Maelstrom-style workload).

This file gives a shallow embedding of the node implemented in
`src/node/src/lib.rs` together with the dispatch loop of `src/main.rs`,
and proves/refutes the specification's claims about it.

Modelling conventions:
* `u32` values are `Nat`; the `msg_id` counter wraps modulo `2 ^ 32`
  exactly where the source performs `+= 1` on a `u32`.
* `HashSet<u32>` is a duplicate-free `List Nat` with membership-guarded
  insertion (`hsInsert`); the arbitrary iteration order used when the
  source collects a `HashSet` into a `Vec` is rendered as the list's own
  order, and claims about such lists are stated up to set equality
  (`List.toFinset`).
* `HashMap<String, V>` is an association list `List (String × V)` with
  unique keys maintained by the update operations (`apush`, `alistSet`);
  `alookup` is the lookup.
* `Vec::swap_remove` is `swapRemove` (replace index `i` with the last
  element, then pop).
* `Ulid::new()` draws external randomness; the generated string is passed
  as an explicit `uid` argument to the dispatcher.
* Rust handlers return `Result`; the only failure paths are channel sends
  (modelled as always succeeding) and the `unreachable!()` arms of `next`,
  which are modelled by `Option` (`none` = panic).
-/

namespace GossipModel

/-- Body variants of the wire protocol, from `enum MessageBody` in
`src/node/src/lib.rs`.  Field order matches the source. -/
inductive MessageBody where
  | broadcast (message : Nat) (msg_id : Nat)
  | broadcast_ok (in_reply_to : Nat) (msg_id : Nat)
  | topology (topology : List (String × List String)) (msg_id : Nat)
  | topology_ok (msg_id : Nat) (in_reply_to : Nat)
  | read (msg_id : Nat)
  | read_ok (messages : List Nat) (in_reply_to : Nat) (msg_id : Nat)
  | generate (msg_id : Nat)
  | generate_ok (msg_id : Nat) (in_reply_to : Nat) (id : String)
  | echo (msg_id : Nat) (echo : String)
  | echo_ok (msg_id : Nat) (in_reply_to : Nat) (echo : String)
  | init (msg_id : Nat) (node_id : String) (node_ids : List String)
  | init_ok (in_reply_to : Nat)
  | sync (msg_id : Nat) (messages : List Nat)
  | sync_ok (msg_id : Nat) (in_reply_to : Nat) (messages : List Nat)
  deriving DecidableEq

/-- Wire envelope `struct Message { src, dest, body }`. -/
structure Message where
  src : String
  dest : String
  body : MessageBody
  deriving DecidableEq

/-- `MessageBody::msg_id(&self)`.  The source calls `unreachable!()` on
`init_ok` (which carries no `msg_id`); that arm is modelled by `none`. -/
def MessageBody.msgIdField : MessageBody → Option Nat
  | .broadcast _ m => some m
  | .broadcast_ok _ m => some m
  | .topology _ m => some m
  | .topology_ok m _ => some m
  | .read m => some m
  | .read_ok _ _ m => some m
  | .generate m => some m
  | .generate_ok m _ _ => some m
  | .echo m _ => some m
  | .echo_ok m _ _ => some m
  | .init m _ _ => some m
  | .init_ok _ => none
  | .sync m _ => some m
  | .sync_ok m _ _ => some m

/-- `Message::into_reply`: swap source and destination, replace the body. -/
def Message.into_reply (msg : Message) (payload : MessageBody) : Message :=
  { src := msg.dest, dest := msg.src, body := payload }

/-- Recognizer for `sync` bodies (used to state claims about sync traffic). -/
def MessageBody.isSync : MessageBody → Bool
  | .sync _ _ => true
  | _ => false

/-- Recognizer for `init` bodies. -/
def MessageBody.isInitMsg : MessageBody → Bool
  | .init _ _ _ => true
  | _ => false

/-- Association-list lookup, modelling `HashMap::get`. -/
def alookup {α : Type} : List (String × α) → String → Option α
  | [], _ => none
  | (k', v) :: rest, k => if k' = k then some v else alookup rest k

/-- `HashMap::entry(k).or_default().push(m)`: append `m` to the vector at
key `k`, creating the entry if absent. -/
def apush : List (String × List Message) → String → Message →
    List (String × List Message)
  | [], k, m => [(k, [m])]
  | (k', v) :: rest, k, m =>
      if k' = k then (k', v ++ [m]) :: rest else (k', v) :: apush rest k m

/-- Replace the value stored at key `k` (models in-place mutation through
`HashMap::get_mut`); a missing key leaves the list unchanged. -/
def alistSet {α : Type} : List (String × α) → String → α → List (String × α)
  | [], _, _ => []
  | (k', v') :: rest, k, v =>
      if k' = k then (k', v) :: rest else (k', v') :: alistSet rest k v

/-- `Vec::swap_remove(i)`: overwrite index `i` with the last element and
pop the last element. -/
def swapRemove {α : Type} (l : List α) (i : Nat) : List α :=
  match l.getLast? with
  | none => []
  | some a => (l.set i a).dropLast

/-- `Iterator::position(pred)` over a vector of messages. -/
def findIndex (p : Message → Bool) : List Message → Option Nat
  | [] => none
  | m :: rest => if p m then some 0 else (findIndex p rest).map (· + 1)

/-- `HashSet::insert`: insert only when absent (keeps the list
duplicate-free). -/
def hsInsert (s : List Nat) (x : Nat) : List Nat :=
  if x ∈ s then s else x :: s

/-- Node state, from `struct Node<Data>` instantiated at `Data = u32`
(as in `src/main.rs`). -/
structure Node where
  id : String
  msg_id : Nat
  node_ids : List String
  store : List Nat
  topology : List (String × List String)
  outbox : List (String × List Message)
  deriving DecidableEq

/-- `Node::new` / `Node::default` (they coincide). -/
def Node.new : Node :=
  { id := "", msg_id := 0, node_ids := [], store := [],
    topology := [], outbox := [] }

/-- `check_and_push_to_store`: insert only when absent, reporting whether
the value was new. -/
def Node.check_and_push_to_store (n : Node) (payload : Nat) :
    Option Nat × Node :=
  if payload ∉ n.store then
    (some payload, { n with store := payload :: n.store })
  else
    (none, n)

/-- `Node::read`: collect the store into a vector.  `HashSet` iteration
order is arbitrary; it is rendered here as the backing list's order. -/
def Node.readStore (n : Node) : List Nat :=
  n.store

/-- `add_to_outbox`: NOTE the source keys the entry by `msg.src`
(the clone of the fan-out envelope's source), not by its destination. -/
def Node.add_to_outbox (n : Node) (msg : Message) : Node :=
  { n with outbox := apush n.outbox msg.src msg }

/-- `remove_from_outbox`: find the entry whose body `msg_id` matches and
`swap_remove` it; missing keys or indices leave the state unchanged. -/
def Node.remove_from_outbox (n : Node) (node_id : String) (m : Nat) : Node :=
  match alookup n.outbox node_id with
  | none => n
  | some node_outbox =>
      match findIndex (fun mm => mm.body.msgIdField == some m) node_outbox with
      | none => n
      | some i =>
          { n with outbox := alistSet n.outbox node_id (swapRemove node_outbox i) }

/-- `get_and_increment_msg_id`: return the current counter and bump it
(`u32` arithmetic, hence the wrap modulo `2 ^ 32`). -/
def Node.get_and_increment_msg_id (n : Node) : Nat × Node :=
  (n.msg_id, { n with msg_id := (n.msg_id + 1) % 2 ^ 32 })

/-- `handle_init_message`: assign `id` and `node_ids` (unconditionally in
the source) and reply `init_ok { in_reply_to }` with `src` the new id.
The counter is not drawn from. -/
def Node.handle_init_message (n : Node) (msg : Message) :
    Node × List Message :=
  match msg.body with
  | .init msg_id node_id node_ids =>
      ({ n with id := node_id, node_ids := node_ids },
       [{ src := node_id, dest := msg.src, body := .init_ok msg_id }])
  | _ => (n, [])

/-- `handle_echo_message`: reply `echo_ok` with a fresh `msg_id`. -/
def Node.handle_echo_message (n : Node) (msg : Message) :
    Node × List Message :=
  match msg.body with
  | .echo msg_id e =>
      let fn := n.get_and_increment_msg_id
      (fn.2, [msg.into_reply (.echo_ok fn.1 msg_id e)])
  | _ => (n, [])

/-- `handle_generate_message`: reply `generate_ok` carrying the freshly
generated ULID string, supplied here as the argument `uid`. -/
def Node.handle_generate_message (n : Node) (msg : Message) (uid : String) :
    Node × List Message :=
  match msg.body with
  | .generate msg_id =>
      let fn := n.get_and_increment_msg_id
      (fn.2, [msg.into_reply (.generate_ok fn.1 msg_id uid)])
  | _ => (n, [])

/-- `handle_broadcast_message`: if the value is new, store it, reply
`broadcast_ok`, and fan out to `topology[id]` minus the sender, recording
each fan-out in the outbox (keyed, as in the source, by the envelope's
`src`).  If the value was already known the whole body is skipped and
nothing is emitted.  The fan-out bodies reuse the inbound `msg_id`. -/
def Node.handle_broadcast_message (n : Node) (msg : Message) :
    Node × List Message :=
  match msg.body with
  | .broadcast message msg_id =>
      match n.check_and_push_to_store message with
      | (none, n') => (n', [])
      | (some _, n') =>
          let fn := n'.get_and_increment_msg_id
          let reply := msg.into_reply (.broadcast_ok msg_id fn.1)
          let n2 := fn.2
          match alookup n2.topology n2.id with
          | none => (n2, [reply])
          | some neighbours =>
              let fanout := (neighbours.filter (fun nb => nb != msg.src)).map
                (fun node_id =>
                  { src := n2.id, dest := node_id,
                    body := MessageBody.broadcast message msg_id })
              (fanout.foldl (fun acc m => acc.add_to_outbox m) n2,
               reply :: fanout)
  | _ => (n, [])

/-- `handle_read_message`: reply `read_ok` with a snapshot of the store. -/
def Node.handle_read_message (n : Node) (msg : Message) :
    Node × List Message :=
  match msg.body with
  | .read msg_id =>
      let messages := n.readStore
      let fn := n.get_and_increment_msg_id
      (fn.2, [msg.into_reply (.read_ok messages msg_id fn.1)])
  | _ => (n, [])

/-- `handle_topology_message`: replace the topology map wholesale and
reply `topology_ok`. -/
def Node.handle_topology_message (n : Node) (msg : Message) :
    Node × List Message :=
  match msg.body with
  | .topology topo msg_id =>
      let n1 := { n with topology := topo }
      let fn := n1.get_and_increment_msg_id
      (fn.2, [msg.into_reply (.topology_ok fn.1 msg_id)])
  | _ => (n, [])

/-- `handle_sync_message`: compute both set differences against the store
before any insertion, absorb `they_have`, and reply `sync_ok` carrying
`i_have`. -/
def Node.handle_sync_message (n : Node) (msg : Message) :
    Node × List Message :=
  match msg.body with
  | .sync msg_id messages =>
      let T : List Nat := messages.dedup
      let i_have : List Nat := n.store.filter (fun x => decide (x ∉ T))
      let they_have : List Nat := T.filter (fun x => decide (x ∉ n.store))
      let n1 := { n with store := they_have.foldl hsInsert n.store }
      let fn := n1.get_and_increment_msg_id
      (fn.2, [msg.into_reply (.sync_ok fn.1 msg_id i_have)])
  | _ => (n, [])

/-- `handle_sync_ok_message`: insert every carried value; no reply and no
outbox bookkeeping. -/
def Node.handle_sync_ok_message (n : Node) (msg : Message) :
    Node × List Message :=
  match msg.body with
  | .sync_ok _ _ messages =>
      ({ n with store := messages.foldl hsInsert n.store }, [])
  | _ => (n, [])

/-- `handle_broadcast_ok_message`: remove the acknowledged entry from the
outbox bucket keyed by the acking peer (`msg.src`); emits nothing. -/
def Node.handle_broadcast_ok_message (n : Node) (msg : Message) :
    Node × List Message :=
  match msg.body with
  | .broadcast_ok in_reply_to _ =>
      (n.remove_from_outbox msg.src in_reply_to, [])
  | _ => (n, [])

/-- `retry_messages`: send a clone of every pending outbox envelope;
the node state is not touched. -/
def retrySend : List (String × List Message) → List Message
  | [] => []
  | (_, msgs) :: rest => msgs ++ retrySend rest

/-- `retry_messages` (entry point on the node). -/
def Node.retry_messages (n : Node) : Node × List Message :=
  (n, retrySend n.outbox)

/-- `NodeTrait::next`: dispatch on the body tag.  The source's
`unreachable!()` arm (reply variants that the node never receives) is
`none`. -/
def next (uid : String) (n : Node) (msg : Message) :
    Option (Node × List Message) :=
  match msg.body with
  | .echo _ _ => some (n.handle_echo_message msg)
  | .init _ _ _ => some (n.handle_init_message msg)
  | .generate _ => some (n.handle_generate_message msg uid)
  | .broadcast _ _ => some (n.handle_broadcast_message msg)
  | .topology _ _ => some (n.handle_topology_message msg)
  | .read _ => some (n.handle_read_message msg)
  | .broadcast_ok _ _ => some (n.handle_broadcast_ok_message msg)
  | .sync _ _ => some (n.handle_sync_message msg)
  | .sync_ok _ _ _ => some (n.handle_sync_ok_message msg)
  | _ => none

/-- `main_loop` of `src/main.rs`: handle each decoded input in turn,
invoking the periodic action — which `main` instantiates with
`retry_messages` alone — before every 50th input (`(msg_num + 1) % 50 == 0`
with `msg_num` counting from 0).  The result pairs the final node state
with all emitted messages in order; `none` models a crash in `next`. -/
def mainLoopAux (uid : String) : Nat → Node → List Message →
    Option (Node × List Message)
  | _, n, [] => some (n, [])
  | i, n, msg :: rest =>
      let pre : Node × List Message :=
        if (i + 1) % 50 = 0 then n.retry_messages else (n, [])
      match next uid pre.1 msg with
      | none => none
      | some r =>
          match mainLoopAux uid (i + 1) r.1 rest with
          | none => none
          | some rr => some (rr.1, pre.2 ++ r.2 ++ rr.2)

/-- The `msg_id`s carried by a list of emitted envelopes, in emission
order (`init_ok` carries none and is dropped). -/
def emittedIds (l : List Message) : List Nat :=
  l.filterMap (fun m => m.body.msgIdField)

/-- Boolean check that a list of numbers is strictly increasing. -/
def strictlyIncreasing : List Nat → Bool
  | [] => true
  | [_] => true
  | a :: b :: rest => decide (a < b) && strictlyIncreasing (b :: rest)

/-- The pending messages of `outbox[p]` (empty when the key is absent). -/
def outboxAt (n : Node) (p : String) : List Message :=
  (alookup n.outbox p).getD []

/- ### Helper lemmas about the container model -/

theorem alookup_alistSet_self {α : Type} (l : List (String × α)) (k : String)
    (v : α) (h : (alookup l k).isSome) :
    alookup (alistSet l k v) k = some v := by
  induction l with
  | nil => simp [alookup] at h
  | cons hd tl ih =>
      obtain ⟨k', v'⟩ := hd
      by_cases hk : k' = k
      · simp [alookup, alistSet, hk]
      · simp only [alookup, alistSet, hk, if_false, if_neg hk] at h ⊢
        exact ih h

theorem mem_hsInsert (s : List Nat) (x y : Nat) :
    y ∈ hsInsert s x ↔ y = x ∨ y ∈ s := by
  unfold hsInsert
  by_cases h : x ∈ s
  · simp only [if_pos h]
    constructor
    · exact Or.inr
    · rintro (rfl | hy) <;> assumption
  · simp [if_neg h]

theorem mem_foldl_hsInsert (l : List Nat) (s : List Nat) (y : Nat) :
    y ∈ l.foldl hsInsert s ↔ y ∈ s ∨ y ∈ l := by
  induction l generalizing s with
  | nil => simp
  | cons hd tl ih =>
      simp only [List.foldl_cons, ih, mem_hsInsert, List.mem_cons]
      tauto

theorem subset_foldl_hsInsert (l : List Nat) (s : List Nat) :
    s ⊆ l.foldl hsInsert s := by
  intro y hy
  exact (mem_foldl_hsInsert l s y).mpr (Or.inl hy)

theorem findIndex_none (p : Message → Bool) (l : List Message)
    (h : findIndex p l = none) : ∀ m ∈ l, p m = false := by
  induction l with
  | nil => simp
  | cons hd tl ih =>
      simp only [findIndex] at h
      by_cases hp : p hd
      · rw [if_pos hp] at h
        exact absurd h (by simp)
      · rw [if_neg hp, Option.map_eq_none'] at h
        intro m hm
        rcases List.mem_cons.mp hm with rfl | hm'
        · exact Bool.eq_false_iff.mpr hp
        · exact ih h m hm'

theorem findIndex_some (p : Message → Bool) (l : List Message) (i : Nat)
    (h : findIndex p l = some i) :
    ∃ x, l[i]? = some x ∧ p x = true := by
  induction l generalizing i with
  | nil => simp [findIndex] at h
  | cons hd tl ih =>
      simp only [findIndex] at h
      by_cases hp : p hd
      · rw [if_pos hp] at h
        obtain rfl : (0 : Nat) = i := Option.some.inj h
        exact ⟨hd, by simp, hp⟩
      · rw [if_neg hp, Option.map_eq_some'] at h
        obtain ⟨j, hj, hji⟩ := h
        obtain ⟨x, hx, hpx⟩ := ih j hj
        refine ⟨x, ?_, hpx⟩
        subst hji
        simpa using hx

theorem swapRemove_perm {α : Type} (l : List α) (i : Nat) (h : i < l.length) :
    (swapRemove l i).Perm (l.eraseIdx i) := by
  have hne : l ≠ [] := List.ne_nil_of_length_pos (Nat.lt_of_le_of_lt (Nat.zero_le _) h)
  have hsw : swapRemove l i = (l.set i (l.getLast hne)).dropLast := by
    rw [swapRemove, List.getLast?_eq_getLast l hne]
  rw [hsw]
  rw [List.set_eq_take_append_cons_drop, if_pos h, List.eraseIdx_eq_take_drop_succ]
  rcases Nat.lt_or_ge i (l.length - 1) with hi | hi
  · have hY : l.drop (i + 1) ≠ [] := by
      intro hnil
      have := List.length_drop (i + 1) l
      rw [hnil] at this
      simp at this
      omega
    have hYeq : l.drop (i + 1) =
        (l.drop (i + 1)).dropLast ++ [l.getLast hne] := by
      have h1 := List.dropLast_append_getLast hY
      have h2 : (l.drop (i + 1)).getLast hY = l.getLast hne := by
        rw [List.getLast_eq_getElem, List.getLast_eq_getElem, List.getElem_drop]
        congr 1
        have := List.length_drop (i + 1) l
        omega
      rw [h2] at h1
      exact h1.symm
    rw [hYeq]
    have hassoc : l.take i ++ l.getLast hne ::
        ((l.drop (i + 1)).dropLast ++ [l.getLast hne]) =
        (l.take i ++ l.getLast hne :: (l.drop (i + 1)).dropLast) ++
          [l.getLast hne] := by
      simp
    rw [hassoc, List.dropLast_concat]
    exact List.Perm.append_left _ ((List.perm_append_singleton _ _).symm)
  · have hi' : i = l.length - 1 := by omega
    have hdrop : l.drop (i + 1) = [] := by
      have : i + 1 = l.length := by
        have : 0 < l.length := Nat.lt_of_le_of_lt (Nat.zero_le _) h
        omega
      rw [this, List.drop_length]
    rw [hdrop]
    have : l.take i ++ [l.getLast hne] = l.take i ++ l.getLast hne :: [] := rfl
    rw [← this, List.dropLast_concat]
    simp

theorem countP_eraseIdx_succ {α : Type} (p : α → Bool) (l : List α) (i : Nat)
    (x : α) (hx : l[i]? = some x) (hp : p x = true) :
    (l.eraseIdx i).countP p + 1 = l.countP p := by
  induction l generalizing i with
  | nil => simp at hx
  | cons hd tl ih =>
      cases i with
      | zero =>
          simp only [List.getElem?_cons_zero, Option.some.injEq] at hx
          subst hx
          simp [List.eraseIdx, List.countP_cons, hp]
      | succ j =>
          simp only [List.getElem?_cons_succ] at hx
          have := ih j hx
          simp only [List.eraseIdx, List.countP_cons]
          omega

theorem retrySend_eq_flatten (l : List (String × List Message)) :
    retrySend l = (l.map Prod.snd).flatten := by
  induction l with
  | nil => rfl
  | cons hd tl ih => simp [retrySend, ih]

theorem foldl_add_to_outbox_frame (l : List Message) (n : Node) :
    ∃ ob, l.foldl (fun acc m => acc.add_to_outbox m) n = { n with outbox := ob } := by
  induction l generalizing n with
  | nil => exact ⟨n.outbox, rfl⟩
  | cons hd tl ih =>
      simp only [List.foldl_cons]
      obtain ⟨ob, hob⟩ := ih (n.add_to_outbox hd)
      exact ⟨ob, by rw [hob]; rfl⟩

theorem remove_from_outbox_frame (n : Node) (p : String) (r : Nat) :
    ∃ ob, n.remove_from_outbox p r = { n with outbox := ob } := by
  unfold Node.remove_from_outbox
  split
  · exact ⟨n.outbox, rfl⟩
  · split
    · exact ⟨n.outbox, rfl⟩
    · exact ⟨_, rfl⟩

/- ### Claim C1 -/

/-- C1: on an inbound `broadcast {msg_id: m, message: v}` whose value `v`
is already in the store, the handler emits NOTHING — not even the
`broadcast_ok` reply the specification promises — and leaves the state
unchanged.  (The reply sits inside the `if let Some(..)` branch that is
skipped for known values, so duplicates are never acknowledged.) -/
theorem c1_duplicate_broadcast_emits_nothing (n : Node) (src d : String)
    (v m : Nat) (h : v ∈ n.store) :
    n.handle_broadcast_message ⟨src, d, .broadcast v m⟩ = (n, []) := by
  simp [Node.handle_broadcast_message, Node.check_and_push_to_store, h]

/-- A node (name `n1`, topology `{n1: [n2]}`) that already stores `42`. -/
def c1n : Node := { Node.new with
  id := "n1", store := [42], topology := [("n1", ["n2"])] }

/-- C1 witness: the node `c1n`, which already stores `42`, re-receives
`broadcast {msg_id: 3, message: 42}` and emits zero messages. -/
theorem c1_duplicate_broadcast_witness :
    c1n.handle_broadcast_message ⟨"c1", "n1", .broadcast 42 3⟩ = (c1n, []) :=
  c1_duplicate_broadcast_emits_nothing c1n "c1" "n1" 42 3 (by decide)

/- ### Claim C3 -/

/-- Node state after a reachable `init`; `topology`; `broadcast` run:
`init` names the node `n1` with peers `[n1, n2]`. -/
def c3n1 : Node :=
  (Node.new.handle_init_message ⟨"c1", "n1", .init 1 "n1" ["n1", "n2"]⟩).1

/-- After the harness installs the topology `{n1: [n2]}`. -/
def c3n2 : Node :=
  (c3n1.handle_topology_message ⟨"c1", "n1", .topology [("n1", ["n2"])] 2⟩).1

/-- Handling `broadcast {msg_id: 3, message: 42}` from client `c1`. -/
def c3res : Node × List Message :=
  c3n2.handle_broadcast_message ⟨"c1", "n1", .broadcast 42 3⟩

/-- C3: the fan-out envelope destined for neighbour `n2` is filed in the
outbox under the key `"n1"` — the node's OWN id (`add_to_outbox` keys by
the envelope's `src`) — so the entry under key `"n1"` has `dest = "n2"`,
and `outbox["n2"]` does not exist.  This refutes the claim that every
entry of `outbox[p]` has `dest = p`. -/
theorem c3_fanout_filed_under_src :
    c3res.1.outbox = [("n1", [⟨"n1", "n2", .broadcast 42 3⟩])]
    ∧ alookup c3res.1.outbox "n2" = none
    ∧ ("n2" : String) ≠ "n1" := by
  refine ⟨by decide, by decide, by decide⟩

/- ### Claim C2 -/

/-- C2: processing `broadcast_ok` from peer `p` with `in_reply_to = r`
removes the pending entry of `outbox[p]` whose body `msg_id` equals `r`
(the claim's singular "the entry" presupposes the spec invariant that at
most one entry matches, taken here as a hypothesis): afterwards no entry
of `outbox[p]` carries `msg_id = r`, nothing is emitted, every surviving
entry was already pending, and when no entry matches the message is
ignored with the state unchanged. -/
theorem c2_broadcast_ok_clears_pending (n : Node) (p d : String)
    (r mid : Nat)
    (huniq : (outboxAt n p).countP
        (fun mm => mm.body.msgIdField == some r) ≤ 1) :
    (∀ mm ∈ outboxAt
        (n.handle_broadcast_ok_message ⟨p, d, .broadcast_ok r mid⟩).1 p,
        mm.body.msgIdField ≠ some r)
    ∧ (n.handle_broadcast_ok_message ⟨p, d, .broadcast_ok r mid⟩).2 = []
    ∧ (∀ mm ∈ outboxAt
        (n.handle_broadcast_ok_message ⟨p, d, .broadcast_ok r mid⟩).1 p,
        mm ∈ outboxAt n p)
    ∧ ((∀ mm ∈ outboxAt n p, mm.body.msgIdField ≠ some r) →
        n.handle_broadcast_ok_message ⟨p, d, .broadcast_ok r mid⟩
          = (n, [])) := by
  have hh : n.handle_broadcast_ok_message ⟨p, d, .broadcast_ok r mid⟩
      = (n.remove_from_outbox p r, []) := rfl
  rw [hh]
  cases hlk : alookup n.outbox p with
  | none =>
      have hno : n.remove_from_outbox p r = n := by
        simp only [Node.remove_from_outbox, hlk]
      have hout : outboxAt n p = [] := by
        unfold outboxAt
        rw [hlk]
        rfl
      refine ⟨?_, rfl, ?_, fun _ => by rw [hno]⟩
      · intro mm hmm
        rw [hno, hout] at hmm
        exact absurd hmm (by simp)
      · intro mm hmm
        rw [hno] at hmm
        exact hmm
  | some nb =>
      have hob : outboxAt n p = nb := by
        unfold outboxAt
        rw [hlk]
        rfl
      cases hfi : findIndex (fun mm => mm.body.msgIdField == some r) nb with
      | none =>
          have hno : n.remove_from_outbox p r = n := by
            simp only [Node.remove_from_outbox, hlk, hfi]
          have hall := findIndex_none _ nb hfi
          refine ⟨?_, rfl, ?_, fun _ => by rw [hno]⟩
          · intro mm hmm
            rw [hno, hob] at hmm
            have hfalse := hall mm hmm
            exact beq_eq_false_iff_ne.mp hfalse
          · intro mm hmm
            rw [hno] at hmm
            exact hmm
      | some i =>
          obtain ⟨x, hx, hpx⟩ := findIndex_some _ nb i hfi
          obtain ⟨hilen, hxel⟩ := List.getElem?_eq_some.mp hx
          have hxmem : x ∈ nb := hxel ▸ List.getElem_mem hilen
          have hrm : n.remove_from_outbox p r =
              { n with outbox := alistSet n.outbox p (swapRemove nb i) } := by
            simp only [Node.remove_from_outbox, hlk, hfi]
          have hafter : outboxAt (n.remove_from_outbox p r) p
              = swapRemove nb i := by
            rw [hrm]
            unfold outboxAt
            have : alookup (alistSet n.outbox p (swapRemove nb i)) p
                = some (swapRemove nb i) :=
              alookup_alistSet_self n.outbox p _ (by rw [hlk]; rfl)
            simp only []
            rw [this]
            rfl
          have hperm := swapRemove_perm nb i hilen
          have hcount1 : nb.countP (fun mm => mm.body.msgIdField == some r)
              = 1 := by
            have hge : 0 < nb.countP (fun mm => mm.body.msgIdField == some r) :=
              List.countP_pos_iff.mpr ⟨x, hxmem, hpx⟩
            rw [hob] at huniq
            omega
          have hzero : (swapRemove nb i).countP
              (fun mm => mm.body.msgIdField == some r) = 0 := by
            have he := countP_eraseIdx_succ
              (fun mm => mm.body.msgIdField == some r) nb i x hx hpx
            have hpc := hperm.countP_eq
              (fun mm => mm.body.msgIdField == some r)
            omega
          refine ⟨?_, rfl, ?_, ?_⟩
          · intro mm hmm
            rw [hafter] at hmm
            exact beq_eq_false_iff_ne.mp
              (Bool.eq_false_iff.mpr (List.countP_eq_zero.mp hzero mm hmm))
          · intro mm hmm
            rw [hafter] at hmm
            rw [hob]
            exact List.eraseIdx_subset nb i (hperm.mem_iff.mp hmm)
          · intro hnone
            exact absurd (beq_iff_eq.mp hpx)
              (hnone x (by rw [hob]; exact hxmem))

/-- A reachable node with one pending fan-out (`msg_id = 3`) for `n2`. -/
def c2n : Node := { Node.new with
  outbox := [("n2", [⟨"n1", "n2", .broadcast 42 3⟩])] }

/-- C2 witness: acknowledging `in_reply_to = 3` from `n2` on `c2n`. -/
theorem c2_broadcast_ok_witness :
    (∀ mm ∈ outboxAt
        (c2n.handle_broadcast_ok_message ⟨"n2", "n1", .broadcast_ok 3 9⟩).1 "n2",
        mm.body.msgIdField ≠ some 3)
    ∧ (c2n.handle_broadcast_ok_message ⟨"n2", "n1", .broadcast_ok 3 9⟩).2 = []
    ∧ (∀ mm ∈ outboxAt
        (c2n.handle_broadcast_ok_message ⟨"n2", "n1", .broadcast_ok 3 9⟩).1 "n2",
        mm ∈ outboxAt c2n "n2")
    ∧ ((∀ mm ∈ outboxAt c2n "n2", mm.body.msgIdField ≠ some 3) →
        c2n.handle_broadcast_ok_message ⟨"n2", "n1", .broadcast_ok 3 9⟩
          = (c2n, [])) :=
  c2_broadcast_ok_clears_pending c2n "n2" "n1" 3 9 (by decide)

/- ### Claim C8 -/

/-- C8 (amended): handling `echo` emits exactly one `echo_ok` reply to the
sender carrying `in_reply_to = m` and the same payload, leaves `id`,
`node_ids`, `store`, `topology` and `outbox` unchanged — but the `msg_id`
counter IS incremented by the fresh-id draw. -/
theorem c8_echo_reply_and_frame (n : Node) (c d : String) (m : Nat)
    (s : String) :
    n.handle_echo_message ⟨c, d, .echo m s⟩ =
      ({ n with msg_id := (n.msg_id + 1) % 2 ^ 32 },
       [{ src := d, dest := c, body := .echo_ok n.msg_id m s }]) := rfl

/-- A freshly initialized node named `n1`, counter at `0`. -/
def c8n : Node := { Node.new with id := "n1" }

/-- C8 counterexample: on a concrete node with counter `0`, handling an
`echo` leaves the counter at `1`, not `0` — the claim that the `msg_id`
counter is unchanged is false. -/
theorem c8_echo_bumps_counter :
    (c8n.handle_echo_message ⟨"c1", "n1", .echo 7 "hi"⟩).1.msg_id = 1
    ∧ c8n.msg_id = 0 := by decide

/- ### Claim C10 -/

/-- C10: `retry_messages` re-emits exactly the pending outbox envelopes,
in outbox order and unmodified, and returns the node state untouched (in
particular no entry is consumed or reordered and the `msg_id` counter is
not incremented). -/
theorem c10_retry_replays_and_preserves_state (n : Node) :
    n.retry_messages.1 = n
    ∧ n.retry_messages.2 = (n.outbox.map Prod.snd).flatten :=
  ⟨rfl, retrySend_eq_flatten n.outbox⟩

/- ### Claim C5 -/

/-- C5 counterexample: a node initialized as `n1` that receives a second
`init` naming it `n9` ends with `id = "n9"` and `peers = ["n9"]` — the
claim that a second `init` leaves `id` and `peers` unchanged is false
(the source assigns unconditionally, with no initialized-yet guard). -/
theorem c5_second_init_overwrites :
    ((Node.new.handle_init_message
        ⟨"c1", "n1", .init 1 "n1" ["n1", "n2"]⟩).1.handle_init_message
        ⟨"c1", "n1", .init 2 "n9" ["n9"]⟩).1.id = "n9"
    ∧ ((Node.new.handle_init_message
        ⟨"c1", "n1", .init 1 "n1" ["n1", "n2"]⟩).1.handle_init_message
        ⟨"c1", "n1", .init 2 "n9" ["n9"]⟩).1.node_ids = ["n9"]
    ∧ ("n9" : String) ≠ "n1" := by
  refine ⟨by decide, by decide, by decide⟩

/-- The two possible outcomes of `check_and_push_to_store`. -/
theorem check_push_cases (n : Node) (v : Nat) :
    (v ∉ n.store ∧ n.check_and_push_to_store v =
        (some v, { n with store := v :: n.store }))
    ∨ (v ∈ n.store ∧ n.check_and_push_to_store v = (none, n)) := by
  unfold Node.check_and_push_to_store
  by_cases h : v ∈ n.store
  · right
    refine ⟨h, ?_⟩
    rw [if_neg (by simpa using h)]
  · left
    exact ⟨h, by rw [if_pos h]⟩

/-- `handle_broadcast_message` can only touch `store`, `msg_id` and
`outbox`; `id`, `node_ids` and `topology` survive. -/
theorem handle_broadcast_identity_frame (n : Node) (msg : Message) :
    (n.handle_broadcast_message msg).1.id = n.id
    ∧ (n.handle_broadcast_message msg).1.node_ids = n.node_ids
    ∧ (n.handle_broadcast_message msg).1.topology = n.topology := by
  unfold Node.handle_broadcast_message
  split
  · rename_i v m hbody
    rcases check_push_cases n v with ⟨hv, heq⟩ | ⟨hv, heq⟩
    · rw [heq]
      simp only [Node.get_and_increment_msg_id]
      cases halk : alookup n.topology n.id with
      | none => simp [halk]
      | some nbs =>
          simp only [halk]
          rw [(foldl_add_to_outbox_frame _ _).choose_spec]
          simp
    · rw [heq]
      simp
  · simp

/-- C5 (amended): every `init` message assigns `id ← node_id` and
`peers ← node_ids` (so a second `init` overwrites them), and no message
other than `init` ever changes `id` or `peers`. -/
theorem c5_init_assigns_id_and_peers (uid : String) (n : Node)
    (msg : Message) :
    (∀ m nid nids, msg.body = .init m nid nids →
        next uid n msg = some ({ n with id := nid, node_ids := nids },
          [{ src := nid, dest := msg.src, body := .init_ok m }]))
    ∧ (msg.body.isInitMsg = false →
        ∀ r, next uid n msg = some r →
          r.1.id = n.id ∧ r.1.node_ids = n.node_ids) := by
  constructor
  · rintro m nid nids hb
    simp [next, hb, Node.handle_init_message]
  · intro hni r hr
    cases hbody : msg.body with
    | init m nid nids =>
        rw [hbody] at hni
        simp [MessageBody.isInitMsg] at hni
    | echo m e =>
        simp only [next, hbody, Option.some.injEq] at hr
        subst hr
        simp [Node.handle_echo_message, hbody, Node.get_and_increment_msg_id]
    | generate m =>
        simp only [next, hbody, Option.some.injEq] at hr
        subst hr
        simp [Node.handle_generate_message, hbody, Node.get_and_increment_msg_id]
    | read m =>
        simp only [next, hbody, Option.some.injEq] at hr
        subst hr
        simp [Node.handle_read_message, hbody, Node.get_and_increment_msg_id]
    | topology topo m =>
        simp only [next, hbody, Option.some.injEq] at hr
        subst hr
        simp [Node.handle_topology_message, hbody, Node.get_and_increment_msg_id]
    | sync m T =>
        simp only [next, hbody, Option.some.injEq] at hr
        subst hr
        simp [Node.handle_sync_message, hbody, Node.get_and_increment_msg_id]
    | sync_ok m irt T =>
        simp only [next, hbody, Option.some.injEq] at hr
        subst hr
        simp [Node.handle_sync_ok_message, hbody]
    | broadcast_ok irt m =>
        simp only [next, hbody, Option.some.injEq] at hr
        subst hr
        obtain ⟨ob, hob⟩ := remove_from_outbox_frame n msg.src irt
        simp [Node.handle_broadcast_ok_message, hbody, hob]
    | broadcast v m =>
        simp only [next, hbody, Option.some.injEq] at hr
        subst hr
        have hfr := handle_broadcast_identity_frame n msg
        exact ⟨hfr.1, hfr.2.1⟩
    | init_ok irt =>
        simp [next, hbody] at hr
    | echo_ok m irt e =>
        simp [next, hbody] at hr
    | topology_ok m irt =>
        simp [next, hbody] at hr
    | read_ok ms irt m =>
        simp [next, hbody] at hr
    | generate_ok m irt i =>
        simp [next, hbody] at hr

/-- C5 witness: applying the amended theorem to a concrete first `init`. -/
theorem c5_init_witness :
    next "" Node.new ⟨"c1", "n1", .init 1 "n1" ["n1", "n2"]⟩ =
      some ({ Node.new with id := "n1", node_ids := ["n1", "n2"] },
        [{ src := "n1", dest := "c1", body := .init_ok 1 }]) :=
  (c5_init_assigns_id_and_peers "" Node.new
      ⟨"c1", "n1", .init 1 "n1" ["n1", "n2"]⟩).1 1 "n1" ["n1", "n2"] rfl

/- ### Claim C6 -/

/-- Node `n1` with two neighbours, counter at `0`. -/
def c6n : Node := { Node.new with
  id := "n1", node_ids := ["n1", "n2", "n3"],
  topology := [("n1", ["n2", "n3"])] }

/-- C6 counterexample: handling `broadcast {msg_id: 5, message: 7}` emits
`broadcast_ok` with fresh `msg_id = 0` followed by two fan-out envelopes
both carrying the inbound `msg_id = 5` — the emitted `msg_id` stream
`[0, 5, 5]` is not strictly increasing (and a later reply would draw `1`,
again smaller than `5`). -/
theorem c6_emitted_ids_not_increasing :
    emittedIds (c6n.handle_broadcast_message
        ⟨"c1", "n1", .broadcast 7 5⟩).2 = [0, 5, 5]
    ∧ strictlyIncreasing (emittedIds (c6n.handle_broadcast_message
        ⟨"c1", "n1", .broadcast 7 5⟩).2) = false := by
  refine ⟨by decide, by decide⟩

/-- C6 (amended): identifiers drawn from the counter do strictly increase
(two successive draws of `get_and_increment_msg_id` return strictly
increasing values while the `u32` counter does not wrap), but the fan-out
envelopes emitted by `handle_broadcast_message` all reuse the inbound
`msg_id` instead of drawing fresh ones, so the full emitted stream is not
strictly increasing. -/
theorem c6_fresh_ids_strictly_increase (n : Node)
    (h : n.msg_id + 1 < 2 ^ 32) :
    n.get_and_increment_msg_id.1 <
      n.get_and_increment_msg_id.2.get_and_increment_msg_id.1
    ∧ ∀ (p d : String) (v m : Nat),
        ∀ mm ∈ (n.handle_broadcast_message ⟨p, d, .broadcast v m⟩).2.tail,
          mm.body.msgIdField = some m := by
  constructor
  · simp only [Node.get_and_increment_msg_id]
    omega
  · intro p d v m mm hmm
    rcases check_push_cases n v with ⟨hv, heq⟩ | ⟨hv, heq⟩
    · simp only [Node.handle_broadcast_message, heq,
        Node.get_and_increment_msg_id] at hmm
      cases halk : alookup n.topology n.id with
      | none =>
          rw [halk] at hmm
          simp at hmm
      | some nbs =>
          rw [halk] at hmm
          simp only [List.tail_cons] at hmm
          obtain ⟨node_id, hnid, rfl⟩ := List.mem_map.mp hmm
          rfl
    · simp only [Node.handle_broadcast_message, heq] at hmm
      simp at hmm

/-- C6 witness: two successive fresh draws from a fresh node. -/
theorem c6_fresh_ids_witness :
    Node.new.get_and_increment_msg_id.1 <
      Node.new.get_and_increment_msg_id.2.get_and_increment_msg_id.1 :=
  (c6_fresh_ids_strictly_increase Node.new (by decide)).1

/- ### Claim C7 -/

/-- C7: handling `sync {msg_id: m, messages: T}` from peer `p` makes the
store (as a set) `S ∪ T` and emits exactly one `sync_ok` reply to `p`
with `in_reply_to = m`, a fresh `msg_id`, and a payload equal (as a set)
to `S \ T`, computed against the store before insertion. -/
theorem c7_sync_reconciliation (n : Node) (p d : String) (m : Nat)
    (T : List Nat) :
    (n.handle_sync_message ⟨p, d, .sync m T⟩).1.store.toFinset
        = n.store.toFinset ∪ T.toFinset
    ∧ ∃ L : List Nat,
        (n.handle_sync_message ⟨p, d, .sync m T⟩).2
          = [{ src := d, dest := p, body := .sync_ok n.msg_id m L }]
        ∧ L.toFinset = n.store.toFinset \ T.toFinset := by
  constructor
  · apply Finset.ext
    intro x
    simp only [Node.handle_sync_message, Node.get_and_increment_msg_id,
      List.mem_toFinset, Finset.mem_union, mem_foldl_hsInsert,
      List.mem_filter, List.mem_dedup, decide_eq_true_eq]
    tauto
  · refine ⟨n.store.filter (fun x => decide (x ∉ T.dedup)), rfl, ?_⟩
    apply Finset.ext
    intro x
    simp only [List.mem_toFinset, Finset.mem_sdiff, List.mem_filter,
      List.mem_dedup, decide_eq_true_eq]

/- ### Claim C4 -/

/-- An initialized node with three peers and a nonempty store. -/
def c4n : Node := { Node.new with
  id := "n1", node_ids := ["n1", "n2", "n3"], store := [7] }

/-- C4 counterexample: a run of 50 inbound `echo` messages on a node with
peers and a nonempty store triggers the once-per-50-messages cadence
exactly once, yet the run emits 50 replies and ZERO `sync` messages: the
main loop's periodic action is `retry_messages` alone, and the
random-peer sync routine is never invoked, contradicting the claim that
each cadence sends 2 sync messages. -/
theorem c4_no_sync_on_cadence :
    Option.map
      (fun r => ((r.2.filter (fun m => m.body.isSync)).length, r.2.length))
      (mainLoopAux "" 0 c4n (List.replicate 50 ⟨"c1", "n1", .echo 9 "hi"⟩))
      = some (0, 50) := by decide

/-- C4 (amended): before every 50th inbound message the periodic action
replays exactly the pending outbox envelopes (`retrySend n.outbox`) and
hands the handler the unchanged node state; it initiates no random-peer
sync (`request_sync_with_random_peers` has no caller in `main`). -/
theorem c4_cadence_replays_outbox_only (uid : String) (i : Nat) (n : Node)
    (msg : Message) (rest : List Message) (h : (i + 1) % 50 = 0) :
    mainLoopAux uid i n (msg :: rest) =
      match next uid n msg with
      | none => none
      | some r =>
          match mainLoopAux uid (i + 1) r.1 rest with
          | none => none
          | some rr => some (rr.1, retrySend n.outbox ++ r.2 ++ rr.2) := by
  rw [mainLoopAux, if_pos h]
  rfl

/-- A node with one pending outbox envelope. -/
def c4wn : Node := { Node.new with
  outbox := [("n1", [⟨"n1", "n2", .broadcast 1 2⟩])] }

/-- C4 witness: the cadence fires at the 50th message (index 49). -/
theorem c4_cadence_witness :
    mainLoopAux "" 49 c4wn [⟨"c1", "n1", .echo 9 "hi"⟩] =
      match next "" c4wn ⟨"c1", "n1", .echo 9 "hi"⟩ with
      | none => none
      | some r =>
          match mainLoopAux "" 50 r.1 [] with
          | none => none
          | some rr => some (rr.1, retrySend c4wn.outbox ++ r.2 ++ rr.2) :=
  c4_cadence_replays_outbox_only "" 49 c4wn ⟨"c1", "n1", .echo 9 "hi"⟩ []
    (by decide)

/- ### Claim C9 -/

/-- The store can only grow across `handle_broadcast_message`. -/
theorem handle_broadcast_store_mono (n : Node) (msg : Message) :
    n.store ⊆ (n.handle_broadcast_message msg).1.store := by
  unfold Node.handle_broadcast_message
  split
  · rename_i v m hbody
    rcases check_push_cases n v with ⟨hv, heq⟩ | ⟨hv, heq⟩
    · rw [heq]
      simp only [Node.get_and_increment_msg_id]
      cases halk : alookup n.topology n.id with
      | none =>
          simp only [halk]
          exact fun x hx => List.mem_cons_of_mem _ hx
      | some nbs =>
          simp only [halk]
          rw [(foldl_add_to_outbox_frame _ _).choose_spec]
          exact fun x hx => List.mem_cons_of_mem _ hx
    · rw [heq]
      exact fun x hx => hx
  · exact fun x hx => hx

/-- C9: the store grows monotonically — for every inbound message the
dispatcher accepts, the store after handling is a superset of the store
before it; no handler removes an element. -/
theorem c9_store_monotone (uid : String) (n : Node) (msg : Message)
    (r : Node × List Message) (h : next uid n msg = some r) :
    n.store ⊆ r.1.store := by
  cases hbody : msg.body with
  | init m nid nids =>
      simp only [next, hbody, Option.some.injEq] at h
      subst h
      simp only [Node.handle_init_message, hbody]
      exact fun x hx => hx
  | echo m e =>
      simp only [next, hbody, Option.some.injEq] at h
      subst h
      simp only [Node.handle_echo_message, hbody, Node.get_and_increment_msg_id]
      exact fun x hx => hx
  | generate m =>
      simp only [next, hbody, Option.some.injEq] at h
      subst h
      simp only [Node.handle_generate_message, hbody,
        Node.get_and_increment_msg_id]
      exact fun x hx => hx
  | read m =>
      simp only [next, hbody, Option.some.injEq] at h
      subst h
      simp only [Node.handle_read_message, hbody, Node.get_and_increment_msg_id]
      exact fun x hx => hx
  | topology topo m =>
      simp only [next, hbody, Option.some.injEq] at h
      subst h
      simp only [Node.handle_topology_message, hbody,
        Node.get_and_increment_msg_id]
      exact fun x hx => hx
  | sync m T =>
      simp only [next, hbody, Option.some.injEq] at h
      subst h
      simp only [Node.handle_sync_message, hbody, Node.get_and_increment_msg_id]
      exact subset_foldl_hsInsert _ _
  | sync_ok m irt T =>
      simp only [next, hbody, Option.some.injEq] at h
      subst h
      simp only [Node.handle_sync_ok_message, hbody]
      exact subset_foldl_hsInsert _ _
  | broadcast_ok irt m =>
      simp only [next, hbody, Option.some.injEq] at h
      subst h
      obtain ⟨ob, hob⟩ := remove_from_outbox_frame n msg.src irt
      simp only [Node.handle_broadcast_ok_message, hbody, hob]
      exact fun x hx => hx
  | broadcast v m =>
      simp only [next, hbody, Option.some.injEq] at h
      subst h
      exact handle_broadcast_store_mono n msg
  | init_ok irt =>
      simp [next, hbody] at h
  | echo_ok m irt e =>
      simp [next, hbody] at h
  | topology_ok m irt =>
      simp [next, hbody] at h
  | read_ok ms irt m =>
      simp [next, hbody] at h
  | generate_ok m irt i =>
      simp [next, hbody] at h

/-- C9 witness: a fresh node absorbing a broadcast keeps its (empty)
store inside the new one. -/
theorem c9_store_monotone_witness :
    c6n.store ⊆ (c6n.handle_broadcast_message
        ⟨"c1", "n1", .broadcast 7 5⟩).1.store :=
  c9_store_monotone "" c6n ⟨"c1", "n1", .broadcast 7 5⟩ _ rfl

end GossipModel
